import Mathlib

/-!
Verification of the simple-whiteboard drawing-state machine.

The development shallowly embeds the two source files of the repository:

* `src/whiteboard.ts` — the minimal viewer: a `Whiteboard` component owning the
  committed item list, the pan offset (`canvasCoords`), the in-progress draft
  (`currentDrawing`) and the active tool (`currentTool`), together with the
  pointer handlers `handleDrawingStart`, `handleDrawingMove`,
  `handleDrawingEnd`, `handleTouchCancel` and `handleToolChange`, and the pure
  path-string generator `getSvgPathFromStroke`.
* `src/tools/rect.ts` — the rect tool of the plugin architecture:
  `getBoundingRect`, `handleDrawingMove` and `handleDrawingEnd` of
  `SimpleWhiteboardToolRect`.

JavaScript numbers are idealised as real numbers (`ℝ`); `Math.sqrt` is
`Real.sqrt`.  The rendering side effects (`this.draw()`, DOM class toggling,
`event.stopPropagation()`) touch no whiteboard state and are not part of the
state. `getSvgPathFromStroke` is a pure string function and is embedded over
`ℚ` so that it stays executable.
-/

/-- Pan offset / point record `{ x, y }` of `whiteboard.ts`. -/
structure Coords where
  x : ℝ
  y : ℝ

/-- The subset of rough.js `Options` that the repository reads or writes
(`stroke`, `strokeWidth`, `fill`); every field is optional, as in the
TypeScript type. -/
structure RoughCanvasOptions where
  stroke : Option String := none
  strokeWidth : Option ℝ := none
  fill : Option String := none

/-- Options of a pen item (`{ color?: string }`). -/
structure PenOptions where
  color : Option String := none

/-- The discriminated union `WhiteboardItem` of `whiteboard.ts`
(rect / circle / line / pen / move variants). -/
inductive WhiteboardItem where
  | rect (x y width height : ℝ) (options : RoughCanvasOptions)
  | circle (x y diameter : ℝ) (options : RoughCanvasOptions)
  | line (x1 y1 x2 y2 : ℝ) (options : RoughCanvasOptions)
  | pen (path : List Coords) (options : PenOptions)
  | move (x y : ℝ)

/-- The `kind` discriminant string of a `WhiteboardItem`. -/
def WhiteboardItem.kind : WhiteboardItem → String
  | .rect .. => "rect"
  | .circle .. => "circle"
  | .line .. => "line"
  | .pen .. => "pen"
  | .move .. => "move"

/-- The whiteboard state of the minimal viewer (`whiteboard.ts`): the
committed item list `items`, the pan offset `canvasCoords`, the draft
`currentDrawing` and the active tool `currentTool`.  The canvas element and
tools menu references are rendering-only and carry no drawing state. -/
structure Whiteboard where
  items : List WhiteboardItem
  canvasCoords : Coords
  currentDrawing : Option WhiteboardItem
  currentTool : String

/-- Function `handleDrawingStart(x, y)` of `whiteboard.ts`: reset the draft to
`undefined`, then switch on the active tool; each shape tool creates a fresh
draft anchored at the pointer position minus the pan offset, the move tool
records the raw pointer position, and any other tool leaves no draft. -/
noncomputable def handleDrawingStart (x y : ℝ) (s : Whiteboard) : Whiteboard :=
  let s0 := { s with currentDrawing := none }
  match s0.currentTool with
  | "rect" =>
      { s0 with currentDrawing := some (.rect (x - s0.canvasCoords.x)
          (y - s0.canvasCoords.y) 0 0 {}) }
  | "circle" =>
      { s0 with currentDrawing := some (.circle (x - s0.canvasCoords.x)
          (y - s0.canvasCoords.y) 0 {}) }
  | "line" =>
      { s0 with currentDrawing := some (.line (x - s0.canvasCoords.x)
          (y - s0.canvasCoords.y) (x - s0.canvasCoords.x)
          (y - s0.canvasCoords.y) {}) }
  | "pen" =>
      { s0 with currentDrawing := some (.pen
          [⟨x - s0.canvasCoords.x, y - s0.canvasCoords.y⟩] {}) }
  | "move" =>
      { s0 with currentDrawing := some (.move x y) }
  | _ => s0

/-- Function `handleDrawingMove(x, y)` of `whiteboard.ts`: a no-op when no draft is
active; otherwise switch on the draft's kind — rect recomputes width/height
from its anchor, circle recomputes the diameter from the Euclidean distance
to the pan-adjusted pointer, line moves its second endpoint, pen appends a
point, and move adds the pointer delta to the pan offset and re-anchors the
draft at the pointer.  The trailing `this.draw()` renders and changes no
state. -/
noncomputable def handleDrawingMove (x y : ℝ) (s : Whiteboard) : Whiteboard :=
  match s.currentDrawing with
  | none => s
  | some item =>
    match item with
    | .rect currentX currentY _ _ opts =>
        { s with currentDrawing := some (.rect currentX currentY
            (x - currentX - s.canvasCoords.x)
            (y - currentY - s.canvasCoords.y) opts) }
    | .circle x1 y1 _ opts =>
        let x2 := x - s.canvasCoords.x
        let y2 := y - s.canvasCoords.y
        let dx := x2 - x1
        let dy := y2 - y1
        let item := WhiteboardItem.circle x1 y1 (Real.sqrt (dx * dx + dy * dy) * 2) opts
        { s with currentDrawing := some item }
    | .line lx1 ly1 _ _ opts =>
        { s with currentDrawing := some (.line lx1 ly1
            (x - s.canvasCoords.x) (y - s.canvasCoords.y) opts) }
    | .pen path opts =>
        { s with currentDrawing := some (.pen
            (path ++ [⟨x - s.canvasCoords.x, y - s.canvasCoords.y⟩]) opts) }
    | .move startX startY =>
        let moveX := x - startX
        let moveY := y - startY
        { s with
            canvasCoords := ⟨s.canvasCoords.x + moveX, s.canvasCoords.y + moveY⟩,
            currentDrawing := some (.move x y) }

/-- Function `handleDrawingEnd()` of `whiteboard.ts`: a no-op when no draft is active;
otherwise push the draft onto `items` unless its kind is `"move"`, then clear
the draft. -/
def handleDrawingEnd (s : Whiteboard) : Whiteboard :=
  match s.currentDrawing with
  | none => s
  | some item =>
      let s1 := if item.kind ≠ "move" then { s with items := s.items ++ [item] } else s
      { s1 with currentDrawing := none }

/-- Function `handleTouchCancel()` of `whiteboard.ts`: a no-op when no draft is
active; otherwise clear the draft without committing it. -/
def handleTouchCancel (s : Whiteboard) : Whiteboard :=
  match s.currentDrawing with
  | none => s
  | some _ => { s with currentDrawing := none }

/-- Function `handleToolChange(event, tool)` of `whiteboard.ts`: sets the active tool.
The surrounding DOM work (`stopPropagation`, button class toggling) touches no
drawing state. -/
def handleToolChange (tool : String) (s : Whiteboard) : Whiteboard :=
  { s with currentTool := tool }

/-- A sequence of `handleDrawingMove` calls at the given pointer positions. -/
noncomputable def runMoves (ps : List (ℝ × ℝ)) (s : Whiteboard) : Whiteboard :=
  ps.foldl (fun t p => handleDrawingMove p.1 p.2 t) s

/-- The `average` helper of `whiteboard.ts`: the average of two numbers. -/
def average (a b : ℚ) : ℚ := (a + b) / 2

/-- JavaScript `Number.prototype.toFixed(2)`, idealised over `ℚ`: a leading
sign for negative inputs, then the absolute value rounded to the nearest
hundredth (ties away from zero, per the ECMAScript `toFixed` algorithm)
printed with exactly two fraction digits.  The exponential form that `toFixed`
falls back to above `10^21` is outside the idealisation. -/
def toFixed2 (q : ℚ) : String :=
  let sign := if q < 0 then "-" else ""
  let n := (round (|q| * 100)).toNat
  let frac := n % 100
  sign ++ toString (n / 100) ++ "." ++ (if frac < 10 then "0" else "") ++ toString frac

/-- Function `getSvgPathFromStroke(points, closed = true)` of `whiteboard.ts`: returns
the empty string for fewer than 4 points, otherwise builds an SVG path string
of quadratic Bezier segments through point midpoints.  Out-of-range array
accesses are modelled with defaulting lookups; the function never reaches
them (the `len < 4` guard runs first, and the loop stays in bounds). -/
def getSvgPathFromStroke (points : List (List ℚ)) (closed : Bool := true) : String :=
  let len := points.length
  if len < 4 then
    ""
  else
    let a := points.getD 0 []
    let b := points.getD 1 []
    let c := points.getD 2 []
    let result := "M" ++ toFixed2 (a.getD 0 0) ++ "," ++ toFixed2 (a.getD 1 0)
      ++ " Q" ++ toFixed2 (b.getD 0 0) ++ "," ++ toFixed2 (b.getD 1 0)
      ++ " " ++ toFixed2 (average (b.getD 0 0) (c.getD 0 0))
      ++ "," ++ toFixed2 (average (b.getD 1 0) (c.getD 1 0)) ++ " T"
    let result := (List.range' 2 (len - 1 - 2)).foldl (fun r i =>
      let a := points.getD i []
      let b := points.getD (i + 1) []
      r ++ toFixed2 (average (a.getD 0 0) (b.getD 0 0))
        ++ "," ++ toFixed2 (average (a.getD 1 0) (b.getD 1 0)) ++ " ") result
    if closed then result ++ "Z" else result

/-- The path-data string built by the `"pen"` case of `drawItem` in
`whiteboard.ts`: the pen item's points are shifted by the pan offset, handed
to the third-party `getStroke` of perfect-freehand (a library outside this
repository, taken here as a parameter), and the resulting outline is passed
to `getSvgPathFromStroke` with `closed` left at its default. -/
def penPathData (getStroke : List (ℚ × ℚ) → List (List ℚ))
    (canvasCoords : ℚ × ℚ) (path : List (ℚ × ℚ)) : String :=
  getSvgPathFromStroke
    (getStroke (path.map (fun p => (p.1 + canvasCoords.1, p.2 + canvasCoords.2))))

/-- The `BoundingRect` record of the plugin architecture
(`lib/SimpleWhiteboardTool`). -/
structure BoundingRect where
  x : ℝ
  y : ℝ
  width : ℝ
  height : ℝ

/-- The `RectItem` of `tools/rect.ts`: a whiteboard item of the plugin
architecture with a `kind` discriminant, an `id`, rect geometry and rough.js
options.  `rect.ts` casts the host's generic `WhiteboardItem` to this shape,
so the model stores items in this form directly. -/
structure RectItem where
  kind : String
  id : String
  x : ℝ
  y : ℝ
  width : ℝ
  height : ℝ
  options : RoughCanvasOptions

/-- Modelled from the spec: the canvas host that `tools/rect.ts` talks to
through `getSimpleWhiteboardInstance()` lives in `lib/SimpleWhiteboardTool`,
which is not under `src/`.  Per the spec, the host "owns the item list,
pointer/touch event wiring, pan offset, and the render loop"; `addItem`
appends to the item list, `setCurrentDrawing` sets or clears the single
draft, and `getCanvasCoords` reads the pan offset. -/
structure ToolHost where
  items : List RectItem
  currentDrawing : Option RectItem
  canvasCoords : Coords

/-- Method `SimpleWhiteboardToolRect.getBoundingRect(item)` of `tools/rect.ts`: the
item's geometry padded by half the stroke width on each side, where the JS
expression `item.options.strokeWidth || 1` yields 1 both when `strokeWidth`
is absent and when it is 0 (0 is falsy). -/
noncomputable def getBoundingRect (item : RectItem) : BoundingRect :=
  let strokeWidth : ℝ :=
    match item.options.strokeWidth with
    | some w => if w = 0 then 1 else w
    | none => 1
  let halfStrokeWidth := strokeWidth / 2
  { x := item.x - halfStrokeWidth,
    y := item.y - halfStrokeWidth,
    width := item.width + strokeWidth,
    height := item.height + strokeWidth }

/-- Method `SimpleWhiteboardToolRect.handleDrawingMove(x, y)` of `tools/rect.ts`:
a no-op when no draft is active or when the draft's kind is not the tool's
name `"rect"`; otherwise the draft's width and height are recomputed from its
anchor and the pan offset. -/
noncomputable def rectHandleDrawingMove (x y : ℝ) (s : ToolHost) : ToolHost :=
  match s.currentDrawing with
  | none => s
  | some currentDrawing =>
      if currentDrawing.kind ≠ "rect" then s
      else
        let item := { currentDrawing with
          width := x - currentDrawing.x - s.canvasCoords.x,
          height := y - currentDrawing.y - s.canvasCoords.y }
        { s with currentDrawing := some item }

/-- Method `SimpleWhiteboardToolRect.handleDrawingEnd()` of `tools/rect.ts`: a no-op
when no draft is active or when the draft's kind is not the tool's name
`"rect"`; otherwise the draft is appended to the item list (`addItem`) and
the draft is cleared (`setCurrentDrawing(null)`). -/
def rectHandleDrawingEnd (s : ToolHost) : ToolHost :=
  match s.currentDrawing with
  | none => s
  | some currentDrawing =>
      if currentDrawing.kind ≠ "rect" then s
      else { s with items := s.items ++ [currentDrawing], currentDrawing := none }

/-- A concrete whiteboard state with no active draft. -/
noncomputable def idleState : Whiteboard :=
  { items := [], canvasCoords := ⟨0, 0⟩, currentDrawing := none,
    currentTool := "rect" }
/-- A concrete whiteboard state with an active rect draft. -/
noncomputable def draftState : Whiteboard :=
  { items := [], canvasCoords := ⟨0, 0⟩,
    currentDrawing := some (.rect 1 2 3 4 {}), currentTool := "rect" }
/-- A concrete whiteboard state with an active circle draft anchored at the
origin. -/
noncomputable def circleDraftState : Whiteboard :=
  { items := [], canvasCoords := ⟨0, 0⟩,
    currentDrawing := some (.circle 0 0 0 {}), currentTool := "circle" }
/-- A concrete whiteboard state whose active tool is the move tool. -/
noncomputable def moveToolState : Whiteboard :=
  { items := [], canvasCoords := ⟨0, 0⟩, currentDrawing := none,
    currentTool := "move" }
/-- A concrete whiteboard state whose active tool is the line tool. -/
noncomputable def lineToolState : Whiteboard :=
  { items := [], canvasCoords := ⟨0, 0⟩, currentDrawing := none,
    currentTool := "line" }
/-- The state reached by starting a rect gesture at (1, 2) on `idleState`
(whose active tool is `"rect"`) and then switching the active tool to
`"circle"` mid-gesture. -/
noncomputable def staleToolState : Whiteboard :=
  handleToolChange "circle" (handleDrawingStart 1 2 idleState)
/-- A concrete plugin-architecture item whose kind is `"circle"`, not the
rect tool's name. -/
noncomputable def circleKindItem : RectItem :=
  { kind := "circle", id := "c1", x := 0, y := 0,
    width := 0, height := 0, options := {} }
/-- A concrete plugin-architecture host holding the mismatched draft
`circleKindItem`. -/
noncomputable def mismatchedHost : ToolHost :=
  { items := [], currentDrawing := some circleKindItem, canvasCoords := ⟨0, 0⟩ }
/-- The bounding rect that claim C8's words prescribe: the item's geometry
padded by half the stroke width on each side, with the stroke width
defaulting to 1 exactly when the item's options omit it. -/
noncomputable def boundingRectClaimed (item : RectItem) : BoundingRect :=
  let strokeWidth : ℝ :=
    match item.options.strokeWidth with
    | some w => w
    | none => 1
  { x := item.x - strokeWidth / 2,
    y := item.y - strokeWidth / 2,
    width := item.width + strokeWidth,
    height := item.height + strokeWidth }
/-- The bounding rect of the amended claim C8: as `boundingRectClaimed`, but
the stroke width also defaults to 1 when the options carry a stroke width of
0, mirroring the falsiness of `strokeWidth || 1`. -/
noncomputable def boundingRectAmended (item : RectItem) : BoundingRect :=
  let strokeWidth : ℝ :=
    match item.options.strokeWidth with
    | some w => if w = 0 then 1 else w
    | none => 1
  { x := item.x - strokeWidth / 2,
    y := item.y - strokeWidth / 2,
    width := item.width + strokeWidth,
    height := item.height + strokeWidth }
/-- A concrete rect item whose options carry a stroke width of 0. -/
noncomputable def zeroStrokeRect : RectItem :=
  { kind := "rect", id := "r0", x := 0, y := 0, width := 10, height := 10,
    options := { strokeWidth := some 0 } }

lemma handleDrawingMove_none {s : Whiteboard} (x y : ℝ)
    (h : s.currentDrawing = none) : handleDrawingMove x y s = s := by
  simp only [handleDrawingMove, h]

lemma handleDrawingMove_rect {s : Whiteboard} (x y ax ay w hh : ℝ)
    (opts : RoughCanvasOptions)
    (h : s.currentDrawing = some (.rect ax ay w hh opts)) :
    handleDrawingMove x y s = { s with currentDrawing := some (.rect ax ay
      (x - ax - s.canvasCoords.x) (y - ay - s.canvasCoords.y) opts) } := by
  simp only [handleDrawingMove, h]

lemma handleDrawingMove_circle {s : Whiteboard} (x y x1 y1 d : ℝ)
    (opts : RoughCanvasOptions)
    (h : s.currentDrawing = some (.circle x1 y1 d opts)) :
    handleDrawingMove x y s = { s with currentDrawing := some (.circle x1 y1
      (Real.sqrt ((x - s.canvasCoords.x - x1) * (x - s.canvasCoords.x - x1) +
        (y - s.canvasCoords.y - y1) * (y - s.canvasCoords.y - y1)) * 2) opts) } := by
  simp only [handleDrawingMove, h]

lemma handleDrawingMove_line {s : Whiteboard} (x y x1 y1 x2 y2 : ℝ)
    (opts : RoughCanvasOptions)
    (h : s.currentDrawing = some (.line x1 y1 x2 y2 opts)) :
    handleDrawingMove x y s = { s with currentDrawing := some (.line x1 y1
      (x - s.canvasCoords.x) (y - s.canvasCoords.y) opts) } := by
  simp only [handleDrawingMove, h]

lemma handleDrawingMove_move {s : Whiteboard} (x y px py : ℝ)
    (h : s.currentDrawing = some (.move px py)) :
    handleDrawingMove x y s = { s with
      canvasCoords := ⟨s.canvasCoords.x + (x - px), s.canvasCoords.y + (y - py)⟩,
      currentDrawing := some (.move x y) } := by
  simp only [handleDrawingMove, h]

lemma handleDrawingEnd_none {s : Whiteboard}
    (h : s.currentDrawing = none) : handleDrawingEnd s = s := by
  simp only [handleDrawingEnd, h]

lemma handleDrawingEnd_commit {s : Whiteboard} {item : WhiteboardItem}
    (h : s.currentDrawing = some item) (hk : item.kind ≠ "move") :
    handleDrawingEnd s =
      { s with items := s.items ++ [item], currentDrawing := none } := by
  simp only [handleDrawingEnd, h, if_pos hk]

lemma handleDrawingEnd_move {s : Whiteboard} {mx my : ℝ}
    (h : s.currentDrawing = some (.move mx my)) :
    handleDrawingEnd s = { s with currentDrawing := none } := by
  simp only [handleDrawingEnd, h]
  norm_num [WhiteboardItem.kind]

lemma handleDrawingMove_pen {s : Whiteboard} (x y : ℝ)
    (path : List Coords) (opts : PenOptions)
    (h : s.currentDrawing = some (.pen path opts)) :
    handleDrawingMove x y s = { s with currentDrawing := some (.pen
      (path ++ [⟨x - s.canvasCoords.x, y - s.canvasCoords.y⟩]) opts) } := by
  simp only [handleDrawingMove, h]

/-- Claim C7: after every call to `handleDrawingEnd` (pointer-up) the current
drawing draft is `none`, whether or not a draft was active and whether or not
it was committed.  (That at most one draft exists at any time is forced by
the state: `currentDrawing` is a single optional field.) -/
theorem drawing_end_clears_draft (s : Whiteboard) :
    (handleDrawingEnd s).currentDrawing = none := by
  unfold handleDrawingEnd
  split
  · assumption
  · rfl

/-- Claim C9: a `handleDrawingMove` or `handleDrawingEnd` call made while no
draft is active returns the state unchanged — in particular the item list,
the pan offset and the draft are untouched, and being a total function the
embedding throws nothing. -/
theorem no_draft_noop (s : Whiteboard) (x y : ℝ)
    (h : s.currentDrawing = none) :
    handleDrawingMove x y s = s ∧ handleDrawingEnd s = s :=
  ⟨handleDrawingMove_none x y h, handleDrawingEnd_none h⟩

/-- Witness for claim C9 at a concrete state and pointer position. -/
theorem no_draft_noop_witness :
    handleDrawingMove 5 7 idleState = idleState ∧
      handleDrawingEnd idleState = idleState :=
  no_draft_noop idleState 5 7 rfl

/-- Claim C10: with any draft active, `handleTouchCancel` merely clears the
draft: the committed item list, the pan offset and the active tool are
exactly as before the call and nothing is committed. -/
theorem touch_cancel_discards_draft (s : Whiteboard) (d : WhiteboardItem)
    (h : s.currentDrawing = some d) :
    handleTouchCancel s = { s with currentDrawing := none } := by
  simp only [handleTouchCancel, h]

/-- Witness for claim C10 at a concrete state with an active rect draft. -/
theorem touch_cancel_discards_draft_witness :
    handleTouchCancel draftState = { draftState with currentDrawing := none } :=
  touch_cancel_discards_draft draftState (.rect 1 2 3 4 {}) rfl

/-- Claim C6: the committed item list is append-only — `handleDrawingStart`,
`handleDrawingMove`, `handleToolChange` and `handleTouchCancel` leave `items`
unchanged, and `handleDrawingEnd` either leaves it unchanged or appends
exactly one element at its end, so earlier items and their order survive
every operation of the minimal viewer. -/
theorem items_append_only (s : Whiteboard) (x y : ℝ) (tool : String) :
    (handleDrawingStart x y s).items = s.items ∧
    (handleDrawingMove x y s).items = s.items ∧
    (handleToolChange tool s).items = s.items ∧
    (handleTouchCancel s).items = s.items ∧
    ((handleDrawingEnd s).items = s.items ∨
      ∃ i, (handleDrawingEnd s).items = s.items ++ [i]) := by
  refine ⟨?_, ?_, rfl, ?_, ?_⟩
  · simp only [handleDrawingStart]
    split <;> rfl
  · cases h : s.currentDrawing with
    | none => rw [handleDrawingMove_none x y h]
    | some item =>
        cases item with
        | rect ax ay w hh opts => rw [handleDrawingMove_rect x y ax ay w hh opts h]
        | circle x1 y1 d opts => rw [handleDrawingMove_circle x y x1 y1 d opts h]
        | line a b c d opts => rw [handleDrawingMove_line x y a b c d opts h]
        | pen path opts => rw [handleDrawingMove_pen x y path opts h]
        | move px py => rw [handleDrawingMove_move x y px py h]
  · cases h : s.currentDrawing with
    | none => rw [handleTouchCancel, h]
    | some d => simp only [handleTouchCancel, h]
  · cases h : s.currentDrawing with
    | none => exact Or.inl (by rw [handleDrawingEnd_none h])
    | some item =>
        by_cases hk : item.kind = "move"
        · exact Or.inl (by simp [handleDrawingEnd, h, hk])
        · exact Or.inr ⟨item, by rw [handleDrawingEnd_commit h hk]⟩

/-- Claim C4: `getSvgPathFromStroke` on fewer than 4 points returns the empty
string (and, being a total function, throws nothing), and the pen rendering
pipeline of `drawItem` produces the empty path whenever the outline handed to
`getSvgPathFromStroke` has fewer than 4 points. -/
theorem short_stroke_empty_path (points : List (List ℚ)) (closed : Bool)
    (getStroke : List (ℚ × ℚ) → List (List ℚ)) (cc : ℚ × ℚ)
    (path : List (ℚ × ℚ))
    (h4 : points.length < 4)
    (hp : (getStroke (path.map (fun p => (p.1 + cc.1, p.2 + cc.2)))).length < 4) :
    getSvgPathFromStroke points closed = "" ∧ penPathData getStroke cc path = "" := by
  constructor
  · simp only [getSvgPathFromStroke, if_pos h4]
  · simp only [penPathData, getSvgPathFromStroke, if_pos hp]

/-- Witness for claim C4: a two-point input yields the empty path, and a pen
item whose stroke outline is empty renders the empty path. -/
theorem short_stroke_empty_path_witness :
    getSvgPathFromStroke [[(1 : ℚ), 2], [3, 4]] true = "" ∧
      penPathData (fun _ => []) (0, 0) [(1, 2)] = "" :=
  short_stroke_empty_path [[(1 : ℚ), 2], [3, 4]] true (fun _ => []) (0, 0)
    [(1, 2)] (by decide) (by decide)

/-- Claim C5: a `handleDrawingMove` at `(x, y)` while a circle draft anchored
at `(x1, y1)` is active sets the draft's stored diameter to exactly twice the
Euclidean distance between the anchor and the pan-adjusted pointer position
`(x - panX, y - panY)`; the anchor, kind and options are untouched. -/
theorem circle_move_diameter (s : Whiteboard) (x y x1 y1 d : ℝ)
    (opts : RoughCanvasOptions)
    (h : s.currentDrawing = some (.circle x1 y1 d opts)) :
    (handleDrawingMove x y s).currentDrawing = some (.circle x1 y1
      (2 * Real.sqrt ((x - s.canvasCoords.x - x1) ^ 2 +
        (y - s.canvasCoords.y - y1) ^ 2)) opts) := by
  have harg : (x - s.canvasCoords.x - x1) * (x - s.canvasCoords.x - x1) +
      (y - s.canvasCoords.y - y1) * (y - s.canvasCoords.y - y1) =
      (x - s.canvasCoords.x - x1) ^ 2 + (y - s.canvasCoords.y - y1) ^ 2 := by
    ring
  rw [handleDrawingMove_circle x y x1 y1 d opts h, harg,
    mul_comm (Real.sqrt ((x - s.canvasCoords.x - x1) ^ 2 +
      (y - s.canvasCoords.y - y1) ^ 2)) 2]

/-- Witness for claim C5 at a concrete circle draft and pointer position. -/
theorem circle_move_diameter_witness :
    (handleDrawingMove 3 4 circleDraftState).currentDrawing =
      some (.circle 0 0 (2 * Real.sqrt (((3 : ℝ) - 0 - 0) ^ 2 +
        ((4 : ℝ) - 0 - 0) ^ 2)) {}) :=
  circle_move_diameter circleDraftState 3 4 0 0 0 {} rfl

lemma runMoves_nil (s : Whiteboard) : runMoves [] s = s := rfl

lemma runMoves_cons (p : ℝ × ℝ) (ps : List (ℝ × ℝ)) (s : Whiteboard) :
    runMoves (p :: ps) s = runMoves ps (handleDrawingMove p.1 p.2 s) := rfl

lemma handleDrawingStart_rect {s : Whiteboard} (x y : ℝ)
    (h : s.currentTool = "rect") :
    handleDrawingStart x y s = { s with currentDrawing := some (.rect
      (x - s.canvasCoords.x) (y - s.canvasCoords.y) 0 0 {}) } := by
  simp only [handleDrawingStart, h]

lemma handleDrawingStart_line {s : Whiteboard} (x y : ℝ)
    (h : s.currentTool = "line") :
    handleDrawingStart x y s = { s with currentDrawing := some (.line
      (x - s.canvasCoords.x) (y - s.canvasCoords.y)
      (x - s.canvasCoords.x) (y - s.canvasCoords.y) {}) } := by
  simp only [handleDrawingStart, h]

lemma handleDrawingStart_move {s : Whiteboard} (x y : ℝ)
    (h : s.currentTool = "move") :
    handleDrawingStart x y s =
      { s with currentDrawing := some (.move x y) } := by
  simp only [handleDrawingStart, h]

lemma runMoves_rect_draft (ps : List (ℝ × ℝ)) :
    ∀ (s : Whiteboard) (ax ay w hh : ℝ) (opts : RoughCanvasOptions),
      s.currentDrawing = some (.rect ax ay w hh opts) →
      ∃ w' h', runMoves ps s =
        { s with currentDrawing := some (.rect ax ay w' h' opts) } := by
  induction ps with
  | nil =>
      intro s ax ay w hh opts h
      exact ⟨w, hh, by rw [runMoves_nil, ← h]⟩
  | cons p ps ih =>
      intro s ax ay w hh opts h
      have hstep := handleDrawingMove_rect p.1 p.2 ax ay w hh opts h
      obtain ⟨w', h', hrun⟩ := ih (handleDrawingMove p.1 p.2 s) ax ay
        (p.1 - ax - s.canvasCoords.x) (p.2 - ay - s.canvasCoords.y) opts
        (by rw [hstep])
      exact ⟨w', h', by rw [runMoves_cons, hrun, hstep]⟩

lemma runMoves_line_draft (ps : List (ℝ × ℝ)) :
    ∀ (s : Whiteboard) (x1 y1 x2 y2 : ℝ) (opts : RoughCanvasOptions),
      s.currentDrawing = some (.line x1 y1 x2 y2 opts) →
      ∃ x2' y2', runMoves ps s =
        { s with currentDrawing := some (.line x1 y1 x2' y2' opts) } := by
  induction ps with
  | nil =>
      intro s x1 y1 x2 y2 opts h
      exact ⟨x2, y2, by rw [runMoves_nil, ← h]⟩
  | cons p ps ih =>
      intro s x1 y1 x2 y2 opts h
      have hstep := handleDrawingMove_line p.1 p.2 x1 y1 x2 y2 opts h
      obtain ⟨x2', y2', hrun⟩ := ih (handleDrawingMove p.1 p.2 s) x1 y1
        (p.1 - s.canvasCoords.x) (p.2 - s.canvasCoords.y) opts
        (by rw [hstep])
      exact ⟨x2', y2', by rw [runMoves_cons, hrun, hstep]⟩

lemma runMoves_move_draft (ps : List (ℝ × ℝ)) :
    ∀ (s : Whiteboard) (px py : ℝ), s.currentDrawing = some (.move px py) →
      (runMoves ps s).items = s.items ∧
      (runMoves ps s).currentTool = s.currentTool ∧
      (runMoves ps s).currentDrawing =
        some (.move (ps.getLastD (px, py)).1 (ps.getLastD (px, py)).2) ∧
      (runMoves ps s).canvasCoords =
        ⟨s.canvasCoords.x + ((ps.getLastD (px, py)).1 - px),
         s.canvasCoords.y + ((ps.getLastD (px, py)).2 - py)⟩ := by
  induction ps with
  | nil =>
      intro s px py h
      refine ⟨rfl, rfl, ?_, ?_⟩
      · simpa using h
      · cases hc : s.canvasCoords with
        | mk cx cy =>
            simp only [runMoves_nil, hc, List.getLastD, Coords.mk.injEq]
            constructor <;> ring
  | cons p ps ih =>
      intro s px py h
      have hstep := handleDrawingMove_move p.1 p.2 px py h
      have h1 : (handleDrawingMove p.1 p.2 s).currentDrawing =
          some (.move p.1 p.2) := by rw [hstep]
      obtain ⟨hi, ht, hd, hc⟩ := ih (handleDrawingMove p.1 p.2 s) p.1 p.2 h1
      rw [runMoves_cons]
      refine ⟨?_, ?_, ?_, ?_⟩
      · rw [hi, hstep]
      · rw [ht, hstep]
      · rw [hd]
        simp only [List.getLastD_cons, Prod.mk.eta]
      · rw [hc, hstep]
        simp only [List.getLastD_cons, Prod.mk.eta, Coords.mk.injEq]
        constructor <;> ring

/-- Claim C3: a gesture performed with the `"move"` tool — `handleDrawingStart`,
any sequence of `handleDrawingMove`s, `handleDrawingEnd` — never appends to the
committed item list; the tool is unchanged, the transient draft is cleared at
pointer-up, and the pan offset has advanced by the total pointer travel from
the start position to the last move position.  Moreover each individual move
on a move draft leaves `items` alone and advances the pan offset by exactly
the pointer delta since the previous move. -/
theorem move_tool_gesture_effect (s : Whiteboard) (sx sy : ℝ)
    (ps : List (ℝ × ℝ)) (h : s.currentTool = "move") :
    ((handleDrawingEnd (runMoves ps (handleDrawingStart sx sy s))).items = s.items ∧
     (handleDrawingEnd (runMoves ps (handleDrawingStart sx sy s))).currentTool =
       s.currentTool ∧
     (handleDrawingEnd (runMoves ps (handleDrawingStart sx sy s))).currentDrawing =
       none ∧
     (handleDrawingEnd (runMoves ps (handleDrawingStart sx sy s))).canvasCoords =
       ⟨s.canvasCoords.x + ((ps.getLastD (sx, sy)).1 - sx),
        s.canvasCoords.y + ((ps.getLastD (sx, sy)).2 - sy)⟩) ∧
    (∀ (t : Whiteboard) (px py mx my : ℝ),
      t.currentDrawing = some (.move px py) →
      (handleDrawingMove mx my t).items = t.items ∧
      (handleDrawingMove mx my t).canvasCoords =
        ⟨t.canvasCoords.x + (mx - px), t.canvasCoords.y + (my - py)⟩) := by
  have hstart := handleDrawingStart_move sx sy h
  have hsd : (handleDrawingStart sx sy s).currentDrawing = some (.move sx sy) := by
    rw [hstart]
  obtain ⟨hi, ht, hd, hc⟩ :=
    runMoves_move_draft ps (handleDrawingStart sx sy s) sx sy hsd
  have hend := handleDrawingEnd_move hd
  refine ⟨⟨?_, ?_, ?_, ?_⟩, ?_⟩
  · rw [hend]
    show (runMoves ps (handleDrawingStart sx sy s)).items = s.items
    rw [hi, hstart]
  · rw [hend]
    show (runMoves ps (handleDrawingStart sx sy s)).currentTool = s.currentTool
    rw [ht, hstart]
  · rw [hend]
  · rw [hend]
    show (runMoves ps (handleDrawingStart sx sy s)).canvasCoords = _
    rw [hc, hstart]
  · intro t px py mx my hm
    rw [handleDrawingMove_move mx my px py hm]
    exact ⟨rfl, rfl⟩

/-- Witness for claim C3: a move gesture from (1, 2) through (4, 6) on a
concrete state. -/
theorem move_tool_gesture_effect_witness :
    ((handleDrawingEnd (runMoves [((4 : ℝ), (6 : ℝ))]
        (handleDrawingStart 1 2 moveToolState))).items = moveToolState.items ∧
     (handleDrawingEnd (runMoves [((4 : ℝ), (6 : ℝ))]
        (handleDrawingStart 1 2 moveToolState))).currentTool =
       moveToolState.currentTool ∧
     (handleDrawingEnd (runMoves [((4 : ℝ), (6 : ℝ))]
        (handleDrawingStart 1 2 moveToolState))).currentDrawing = none ∧
     (handleDrawingEnd (runMoves [((4 : ℝ), (6 : ℝ))]
        (handleDrawingStart 1 2 moveToolState))).canvasCoords =
       ⟨moveToolState.canvasCoords.x + ((([((4 : ℝ), (6 : ℝ))]).getLastD (1, 2)).1 - 1),
        moveToolState.canvasCoords.y + ((([((4 : ℝ), (6 : ℝ))]).getLastD (1, 2)).2 - 2)⟩) ∧
    (∀ (t : Whiteboard) (px py mx my : ℝ),
      t.currentDrawing = some (.move px py) →
      (handleDrawingMove mx my t).items = t.items ∧
      (handleDrawingMove mx my t).canvasCoords =
        ⟨t.canvasCoords.x + (mx - px), t.canvasCoords.y + (my - py)⟩) :=
  move_tool_gesture_effect moveToolState 1 2 [((4 : ℝ), (6 : ℝ))] rfl

/-- Claim C2: a completed rect or line gesture (start at `(sx, sy)`, any moves
with the final one at `(mx, my)`, then pointer-up) commits a record whose
anchor is the start pointer position minus the pan offset, with rect width
`mx - anchorX - panX` and height `my - anchorY - panY`, and with line second
endpoint the code's `(mx - panX, my - panY)`, which equals the anchor plus
the pointer delta `(mx - sx, my - sy)`. -/
theorem rect_line_gesture_geometry (s t : Whiteboard) (sx sy mx my : ℝ)
    (ps : List (ℝ × ℝ)) (hr : s.currentTool = "rect") (hl : t.currentTool = "line") :
    (handleDrawingEnd (handleDrawingMove mx my
        (runMoves ps (handleDrawingStart sx sy s)))).items =
      s.items ++ [.rect (sx - s.canvasCoords.x) (sy - s.canvasCoords.y)
        (mx - (sx - s.canvasCoords.x) - s.canvasCoords.x)
        (my - (sy - s.canvasCoords.y) - s.canvasCoords.y) {}] ∧
    (handleDrawingEnd (handleDrawingMove mx my
        (runMoves ps (handleDrawingStart sx sy t)))).items =
      t.items ++ [.line (sx - t.canvasCoords.x) (sy - t.canvasCoords.y)
        (mx - t.canvasCoords.x) (my - t.canvasCoords.y) {}] ∧
    mx - t.canvasCoords.x = (sx - t.canvasCoords.x) + (mx - sx) ∧
    my - t.canvasCoords.y = (sy - t.canvasCoords.y) + (my - sy) := by
  refine ⟨?_, ?_, by ring, by ring⟩
  · rw [handleDrawingStart_rect sx sy hr]
    obtain ⟨w', h', hrun⟩ := runMoves_rect_draft ps
      ({ s with currentDrawing := some (.rect (sx - s.canvasCoords.x)
        (sy - s.canvasCoords.y) 0 0 {}) }) (sx - s.canvasCoords.x)
      (sy - s.canvasCoords.y) 0 0 {} rfl
    rw [hrun]
    rw [handleDrawingMove_rect mx my (sx - s.canvasCoords.x)
      (sy - s.canvasCoords.y) w' h' {} rfl]
    rw [handleDrawingEnd_commit rfl (by simp [WhiteboardItem.kind])]
  · rw [handleDrawingStart_line sx sy hl]
    obtain ⟨x2', y2', hrun⟩ := runMoves_line_draft ps
      ({ t with currentDrawing := some (.line (sx - t.canvasCoords.x)
        (sy - t.canvasCoords.y) (sx - t.canvasCoords.x)
        (sy - t.canvasCoords.y) {}) }) (sx - t.canvasCoords.x)
      (sy - t.canvasCoords.y) (sx - t.canvasCoords.x)
      (sy - t.canvasCoords.y) {} rfl
    rw [hrun]
    rw [handleDrawingMove_line mx my (sx - t.canvasCoords.x)
      (sy - t.canvasCoords.y) x2' y2' {} rfl]
    rw [handleDrawingEnd_commit rfl (by simp [WhiteboardItem.kind])]

/-- Witness for claim C2: a rect gesture and a line gesture from (1, 2) to
(5, 9) on concrete states. -/
theorem rect_line_gesture_geometry_witness :
    (handleDrawingEnd (handleDrawingMove 5 9
        (runMoves [] (handleDrawingStart 1 2 idleState)))).items =
      idleState.items ++ [.rect (1 - idleState.canvasCoords.x)
        (2 - idleState.canvasCoords.y)
        (5 - (1 - idleState.canvasCoords.x) - idleState.canvasCoords.x)
        (9 - (2 - idleState.canvasCoords.y) - idleState.canvasCoords.y) {}] ∧
    (handleDrawingEnd (handleDrawingMove 5 9
        (runMoves [] (handleDrawingStart 1 2 lineToolState)))).items =
      lineToolState.items ++ [.line (1 - lineToolState.canvasCoords.x)
        (2 - lineToolState.canvasCoords.y)
        (5 - lineToolState.canvasCoords.x) (9 - lineToolState.canvasCoords.y) {}] ∧
    (5 : ℝ) - lineToolState.canvasCoords.x =
      (1 - lineToolState.canvasCoords.x) + (5 - 1) ∧
    (9 : ℝ) - lineToolState.canvasCoords.y =
      (2 - lineToolState.canvasCoords.y) + (9 - 2) :=
  rect_line_gesture_geometry idleState lineToolState 1 2 5 9 [] rfl rfl

/-- Claim C1 counterexample: in the minimal viewer, after starting a rect
gesture and switching the active tool to `"circle"` mid-gesture, the draft's
kind `"rect"` differs from the active tool, yet `handleDrawingEnd` appends
the stale draft to the committed item list instead of discarding it. -/
theorem minimal_viewer_commits_stale_draft :
    staleToolState.currentTool = "circle" ∧
    staleToolState.currentDrawing = some (.rect 1 2 0 0 {}) ∧
    (WhiteboardItem.rect 1 2 0 0 {}).kind ≠ staleToolState.currentTool ∧
    (handleDrawingEnd staleToolState).items = [.rect 1 2 0 0 {}] := by
  have hs : staleToolState =
      { items := [], canvasCoords := ⟨0, 0⟩,
        currentDrawing := some (.rect 1 2 0 0 {}), currentTool := "circle" } := by
    show handleToolChange "circle" (handleDrawingStart 1 2 idleState) = _
    rw [handleDrawingStart_rect 1 2 rfl]
    simp only [handleToolChange, idleState]
    norm_num
  refine ⟨by rw [hs], by rw [hs], by simp [WhiteboardItem.kind, hs], ?_⟩
  rw [hs, handleDrawingEnd_commit rfl (by simp [WhiteboardItem.kind])]
  rfl

/-- Claim C1 (amended): the kind-versus-tool guard exists only in the plugin
tools — `tools/rect.ts`'s `handleDrawingEnd` leaves the host untouched when
the draft's kind is not the tool's name `"rect"`, so a mismatched draft is
never committed there.  The minimal viewer's `handleDrawingEnd`, by contrast,
commits every active draft whose kind is not `"move"` regardless of the
currently active tool, and `handleToolChange` leaves the draft in place, so
changing tools mid-gesture commits rather than discards the stale draft. -/
theorem mismatched_draft_commit_behavior (ts : ToolHost) (d : RectItem)
    (s : Whiteboard) (w : WhiteboardItem) (tool : String)
    (hts : ts.currentDrawing = some d) (hkd : d.kind ≠ "rect")
    (hs : s.currentDrawing = some w) (hkw : w.kind ≠ "move") :
    rectHandleDrawingEnd ts = ts ∧
    (handleToolChange tool s).currentDrawing = s.currentDrawing ∧
    (handleDrawingEnd s).items = s.items ++ [w] := by
  refine ⟨?_, rfl, ?_⟩
  · simp only [rectHandleDrawingEnd, hts, if_pos hkd]
  · rw [handleDrawingEnd_commit hs hkw]

/-- Witness for the amended claim C1 at a concrete mismatched host and a
concrete minimal-viewer state with an active rect draft. -/
theorem mismatched_draft_commit_behavior_witness :
    rectHandleDrawingEnd mismatchedHost = mismatchedHost ∧
    (handleToolChange "circle" draftState).currentDrawing =
      draftState.currentDrawing ∧
    (handleDrawingEnd draftState).items =
      draftState.items ++ [.rect 1 2 3 4 {}] :=
  mismatched_draft_commit_behavior mismatchedHost circleKindItem
    draftState (.rect 1 2 3 4 {}) "circle" rfl (by decide) rfl
    (by simp [WhiteboardItem.kind])

/-- Claim C8 counterexample: on an item whose options carry `strokeWidth: 0`,
`getBoundingRect` does not pad by half of the stored stroke width (which
would be 0) — the JS expression `strokeWidth || 1` treats 0 as absent, so
the code pads by 1/2. -/
theorem bounding_rect_zero_stroke_cex :
    getBoundingRect zeroStrokeRect ≠ boundingRectClaimed zeroStrokeRect := by
  intro h
  have hx := congrArg BoundingRect.x h
  simp only [getBoundingRect, boundingRectClaimed, zeroStrokeRect] at hx
  norm_num at hx

/-- Claim C8 (amended): for every rect item, `getBoundingRect` returns the
item's geometry padded by half the effective stroke width on each side — x
and y shifted down by half of it, width and height enlarged by it — where
the effective stroke width is the options' `strokeWidth` except that an
omitted and a zero stroke width both default to 1. -/
theorem bounding_rect_padding (item : RectItem) :
    getBoundingRect item = boundingRectAmended item := by
  cases h : item.options.strokeWidth with
  | none => simp only [getBoundingRect, boundingRectAmended, h]
  | some w => simp only [getBoundingRect, boundingRectAmended, h]
